import Mathlib

set_option autoImplicit false

/-!
A shallow embedding of the io_uring selector in `src/sys/unix/io_uring.rs`.

Modelling conventions:
* Machine integers are `Nat`/`Int`.  `RawFd` (i32) and the completion
  result (i32) are `Int`.  `usize` and `u64` are `Nat`; on the 64-bit
  target both are 64-bit words, so the casts `usize as u64` and
  `u64 as usize` in the source are value-preserving and modelled as the
  identity.  The `i16` readiness mask is modelled by its 16-bit two's
  complement bit pattern as a `Nat` (`toBits16` performs the truncating
  `i32 as i16` cast); the libc poll constants are small positive values,
  so the bit tests `mask & FLAG != 0` coincide with the tests on the
  bit pattern.
* The watch record `Data` is heap-allocated in the source and its raw
  `Box` address travels to the kernel as the opaque 64-bit `user_data`
  tag; the completion hands the tag back and it is reinterpreted as the
  record.  The tag is modelled as the record itself.
* The ring lives behind `Arc<Mutex<IoUring>>`; every selector method
  locks it and then works on the ring state, so each method is modelled
  as a function of the ring state `IoUring` (pending submission queue with
  its fixed capacity, plus the currently available completions).
  `submit_and_wait(1)` hands all pending submissions to the kernel
  (draining `sq`) and returns once completions are available; kernel
  level failures of that syscall and real blocking are environment
  behaviour and are not modelled.
* `Arc` cloning is handle sharing: a `Selector` holds the identity of
  the shared ring allocation, and `clone` copies that handle.
-/

/-- Linux libc `POLLIN` (i16 value 0x001), as a bit pattern. -/
def POLLIN : Nat := 0x001

/-- Linux libc `POLLPRI` (i16 value 0x002). -/
def POLLPRI : Nat := 0x002

/-- Linux libc `POLLOUT` (i16 value 0x004). -/
def POLLOUT : Nat := 0x004

/-- Linux libc `POLLERR` (i16 value 0x008). -/
def POLLERR : Nat := 0x008

/-- Linux libc `POLLHUP` (i16 value 0x010). -/
def POLLHUP : Nat := 0x010

/-- Local constant in the source: `const POLLRDHUP: i16 = 0x2000`. -/
def POLLRDHUP : Nat := 0x2000

/-- `Token(pub usize)` from the crate root, an opaque correlation id. -/
structure Token where
  val : Nat
deriving DecidableEq

/-- The external `Interests` capability set, consumed through its
`is_readable` and `is_writable` queries only. -/
structure Interests where
  readable : Bool
  writable : Bool
deriving DecidableEq

def Interests.is_readable (i : Interests) : Bool := i.readable

def Interests.is_writable (i : Interests) : Bool := i.writable

/-- The per-registration watch record `struct Data`. -/
structure Data where
  fd : Int
  token : Token
  interests : Interests
deriving DecidableEq

/-- `fn interests_to_poll(interests: Interests) -> i16`: builds the poll
mask with `kind |= POLLIN` when readable and `kind |= POLLOUT` when
writable.  The result is a small non-negative i16, kept as a `Nat`. -/
def interests_to_poll (interests : Interests) : Nat :=
  let kind : Nat := 0
  let kind := if interests.is_readable then kind ||| POLLIN else kind
  let kind := if interests.is_writable then kind ||| POLLOUT else kind
  kind

/-- A submission queue entry (`squeue::Entry`): a `PollAdd` opcode with
the target descriptor, the poll mask, and the `user_data` tag.  The tag
is the raw address of the boxed `Data`; it is modelled by the record the
address denotes. -/
structure Entry where
  fd : Int
  mask : Nat
  user_data : Data
deriving DecidableEq

/-- `Data::into_entry`: encode a watch record into a fresh `PollAdd`
submission entry tagged with the record itself. -/
def Data.into_entry (d : Data) : Entry :=
  { fd := d.fd, mask := interests_to_poll d.interests, user_data := d }

/-- A completion queue entry: the echoed `user_data` tag (modelled as
the watch record it denotes) and the i32 syscall result. -/
structure CQEntry where
  user_data : Data
  result : Int
deriving DecidableEq

/-- The relevant subset of `std::io::ErrorKind`.  The source only ever
constructs `ErrorKind::Other`; `ResourceExhausted` is the distinct
resource-exhausted kind, present so that statements about it can be
expressed (std has no variant of that name, and the code does not use
any resource-exhaustion kind). -/
inductive ErrorKind where
  | Other
  | ResourceExhausted
deriving DecidableEq

/-- `std::io::Error`, reduced to its kind and message. -/
structure IoError where
  kind : ErrorKind
  msg : String
deriving DecidableEq

/-- The error built at both push sites:
`io::Error::new(io::ErrorKind::Other, "submission queue is full")`. -/
def sq_full_error : IoError := ⟨ErrorKind.Other, "submission queue is full"⟩

/-- The shared ring state behind the `Arc<Mutex<IoUring>>`: the pending
submission queue with its fixed capacity (128 in `Selector::new`), and
the completions currently available for reaping. -/
structure IoUring where
  sq : List Entry
  sq_capacity : Nat
  cq : List CQEntry
deriving DecidableEq

/-- `ring.submission().available().push(entry)`: appends the entry, or
fails when the submission queue has no free slot. -/
def IoUring.sq_push (r : IoUring) (e : Entry) : Except IoError IoUring :=
  if r.sq.length < r.sq_capacity then Except.ok { r with sq := r.sq ++ [e] }
  else Except.error sq_full_error

/-- `struct Selector`: the debug id and the `Arc` handle to the shared
ring, modelled by the identity of the ring allocation. -/
structure Selector where
  id : Nat
  ring : Nat
deriving DecidableEq

/-- `#[derive(Clone)]` on `Selector`: copies the debug id and clones the
`Arc`, which yields a handle to the same ring allocation. -/
def Selector.clone (s : Selector) : Selector := s

/-- `Selector::try_clone`: `Ok(self.clone())`. -/
def Selector.try_clone (s : Selector) : Except IoError Selector :=
  Except.ok s.clone

/-- `Selector::register`: box a new watch record, encode it as a
submission entry, and push it; the push error (queue full) is returned
to the caller and the ring is left as it was. -/
def Selector.register (r : IoUring) (fd : Int) (token : Token)
    (interests : Interests) : Except IoError Unit × IoUring :=
  let entry := (Data.mk fd token interests).into_entry
  match r.sq_push entry with
  | Except.ok r2 => (Except.ok (), r2)
  | Except.error e => (Except.error e, r)

/-- `Selector::reregister`: `self.register(fd, token, interests)`. -/
def Selector.reregister (r : IoUring) (fd : Int) (token : Token)
    (interests : Interests) : Except IoError Unit × IoUring :=
  Selector.register r fd token interests

/-- `Selector::deregister`: the body is `// TODO` followed by `Ok(())`. -/
def Selector.deregister (r : IoUring) (_fd : Int) : Except IoError Unit × IoUring :=
  (Except.ok (), r)

/-- `struct Event { events: i16, token: u64 }`, with `events` kept as
its 16-bit pattern. -/
structure Event where
  events : Nat
  token : Nat
deriving DecidableEq

/-- The truncating cast `i32 as i16`, returning the 16-bit two's
complement bit pattern of the result. -/
def toBits16 (x : Int) : Nat := (x % 65536).toNat

/-- The event built for one drained completion:
`Event { events: entry.result() as _, token: data.token.0 as _ }`. -/
def drain_event (c : CQEntry) : Event :=
  { events := toBits16 c.result, token := c.user_data.token.val }

/-- The rearm loop at the end of `Selector::select`: push
`data.into_entry()` for each reclaimed record in order; the first push
failure is returned immediately by `?`, leaving the earlier pushes in
place and abandoning the remaining records. -/
def Selector.rearm (r : IoUring) : List Data → Except IoError Unit × IoUring
  | [] => (Except.ok (), r)
  | d :: rest =>
    match r.sq_push d.into_entry with
    | Except.ok r2 => Selector.rearm r2 rest
    | Except.error e => (Except.error e, r)

/-- `Selector::select(events, _timeout)`: clear the output buffer, lock
the ring, `submit_and_wait(1)` (pending submissions are handed to the
kernel, so `sq` drains), reap every available completion into a
reclaimed-record queue and the output events, then rearm.  Returns the
io result, the output buffer contents, and the ring state. -/
def Selector.select (r : IoUring) (_events0 : List Event)
    (_timeout : Option Nat) : Except IoError Unit × List Event × IoUring :=
  let r1 : IoUring := { r with sq := [] }
  let queue : List Data := r1.cq.map (fun c => c.user_data)
  let events : List Event := r1.cq.map drain_event
  let r2 : IoUring := { r1 with cq := [] }
  let res := Selector.rearm r2 queue
  (res.1, events, res.2)

/-- `event::token`: `Token(event.token as usize)`. -/
def event.token (e : Event) : Token := Token.mk e.token

/-- `event::is_readable`: POLLIN or POLLPRI set. -/
def event.is_readable (e : Event) : Bool :=
  (e.events &&& POLLIN != 0) || (e.events &&& POLLPRI != 0)

/-- `event::is_writable`: POLLOUT set. -/
def event.is_writable (e : Event) : Bool := e.events &&& POLLOUT != 0

/-- `event::is_error`: POLLERR set. -/
def event.is_error (e : Event) : Bool := e.events &&& POLLERR != 0

/-- `event::is_hup`: POLLHUP set. -/
def event.is_hup (e : Event) : Bool := e.events &&& POLLHUP != 0

/-- `event::is_read_hup`: the local POLLRDHUP bit set. -/
def event.is_read_hup (e : Event) : Bool := e.events &&& POLLRDHUP != 0

/-- `event::is_priority`: POLLPRI set. -/
def event.is_priority (e : Event) : Bool := e.events &&& POLLPRI != 0

/-- `event::is_aio`: constantly `false`. -/
def event.is_aio (_ : Event) : Bool := false

/-- `event::is_lio`: constantly `false`. -/
def event.is_lio (_ : Event) : Bool := false

/-! ## Helper lemmas -/

/-- A bitwise AND with a single power of two tests exactly that bit. -/
lemma land_bit (n k : Nat) : (n &&& 2 ^ k != 0) = n.testBit k := by
  rw [Nat.and_two_pow]
  cases h : n.testBit k with
  | false => simp
  | true =>
    have h2 : 0 < 2 ^ k := Nat.pos_pow_of_pos k (by norm_num)
    simp [h2.ne']

lemma land_POLLIN (n : Nat) : (n &&& POLLIN != 0) = n.testBit 0 := land_bit n 0

lemma land_POLLPRI (n : Nat) : (n &&& POLLPRI != 0) = n.testBit 1 := land_bit n 1

lemma land_POLLOUT (n : Nat) : (n &&& POLLOUT != 0) = n.testBit 2 := land_bit n 2

lemma land_POLLERR (n : Nat) : (n &&& POLLERR != 0) = n.testBit 3 := land_bit n 3

lemma land_POLLHUP (n : Nat) : (n &&& POLLHUP != 0) = n.testBit 4 := land_bit n 4

/-- The rearm loop succeeds and appends every record when the pushed
entries fit under the capacity. -/
lemma rearm_ok_of (r : IoUring) (ds : List Data)
    (h : r.sq.length + ds.length ≤ r.sq_capacity) :
    Selector.rearm r ds =
      (Except.ok (), { r with sq := r.sq ++ ds.map Data.into_entry }) := by
  induction ds generalizing r with
  | nil => simp [Selector.rearm]
  | cons d rest ih =>
    have hlt : r.sq.length < r.sq_capacity := by
      simp only [List.length_cons] at h
      omega
    have hpush : r.sq_push d.into_entry =
        Except.ok { r with sq := r.sq ++ [d.into_entry] } := by
      simp [IoUring.sq_push, hlt]
    have hlen : ({ r with sq := r.sq ++ [d.into_entry] } : IoUring).sq.length
        + rest.length ≤ ({ r with sq := r.sq ++ [d.into_entry] } : IoUring).sq_capacity := by
      simp only [List.length_append, List.length_cons, List.length_nil] at h ⊢
      omega
    simp only [Selector.rearm, hpush]
    rw [ih _ hlen]
    simp [List.append_assoc]

/-- The rearm loop fails with the queue-full error as soon as the
capacity is exceeded, keeping exactly the entries pushed before the
failing one. -/
lemma rearm_fail_of (r : IoUring) (ds : List Data)
    (h1 : r.sq.length ≤ r.sq_capacity)
    (h2 : r.sq_capacity < r.sq.length + ds.length) :
    Selector.rearm r ds =
      (Except.error sq_full_error,
        { r with sq := r.sq ++
            (ds.map Data.into_entry).take (r.sq_capacity - r.sq.length) }) := by
  induction ds generalizing r with
  | nil =>
    exact absurd h2 (by simp; omega)
  | cons d rest ih =>
    by_cases hlt : r.sq.length < r.sq_capacity
    · have hpush : r.sq_push d.into_entry =
          Except.ok { r with sq := r.sq ++ [d.into_entry] } := by
        simp [IoUring.sq_push, hlt]
      have h1b : ({ r with sq := r.sq ++ [d.into_entry] } : IoUring).sq.length
          ≤ ({ r with sq := r.sq ++ [d.into_entry] } : IoUring).sq_capacity := by
        simp only [List.length_append, List.length_cons, List.length_nil]
        omega
      have h2b : ({ r with sq := r.sq ++ [d.into_entry] } : IoUring).sq_capacity
          < ({ r with sq := r.sq ++ [d.into_entry] } : IoUring).sq.length + rest.length := by
        simp only [List.length_append, List.length_cons, List.length_nil] at h2 ⊢
        omega
      simp only [Selector.rearm, hpush]
      rw [ih _ h1b h2b]
      obtain ⟨m, hm⟩ : ∃ m, r.sq_capacity - r.sq.length = m + 1 :=
        ⟨r.sq_capacity - r.sq.length - 1, by omega⟩
      have hm2 : r.sq_capacity - (r.sq.length + 1) = m := by omega
      simp only [List.map_cons, hm, List.take_succ_cons, List.length_append,
        List.length_cons, List.length_nil, hm2]
      simp [List.append_assoc]
    · have hpush : r.sq_push d.into_entry = Except.error sq_full_error := by
        simp [IoUring.sq_push, hlt]
      have hz : r.sq_capacity - r.sq.length = 0 := by omega
      simp [Selector.rearm, hpush, hz]

/-- A successful rearm starting below capacity appended every record. -/
lemma rearm_ok_state (r : IoUring) (ds : List Data)
    (h : (Selector.rearm r ds).1 = Except.ok ())
    (hle : r.sq.length ≤ r.sq_capacity) :
    (Selector.rearm r ds).2 = { r with sq := r.sq ++ ds.map Data.into_entry } := by
  rcases le_or_lt (r.sq.length + ds.length) r.sq_capacity with hc | hc
  · rw [rearm_ok_of r ds hc]
  · rw [rearm_fail_of r ds hle hc] at h
    exact absurd h (by simp)

/-! ## Claim theorems -/

/-- C4: every readiness-event capability accessor is a pure function of
the raw readiness mask and the stated bit test: `is_readable` is true
iff the readable bit (bit 0, POLLIN) or the priority bit (bit 1,
POLLPRI) is set, `is_writable` iff the writable bit (bit 2, POLLOUT),
`is_error` iff the error bit (bit 3, POLLERR), `is_hup` iff the hangup
bit (bit 4, POLLHUP); `is_aio` and `is_lio` are false for every event;
and for an event whose mask has only the readable bit set, only
`is_readable` holds. -/
theorem event_accessors_are_stated_bit_tests (e : Event) (tok : Nat) :
    event.is_readable e = (e.events.testBit 0 || e.events.testBit 1)
    ∧ event.is_writable e = e.events.testBit 2
    ∧ event.is_error e = e.events.testBit 3
    ∧ event.is_hup e = e.events.testBit 4
    ∧ event.is_aio e = false
    ∧ event.is_lio e = false
    ∧ (event.is_readable ⟨POLLIN, tok⟩ = true
        ∧ event.is_writable ⟨POLLIN, tok⟩ = false
        ∧ event.is_error ⟨POLLIN, tok⟩ = false
        ∧ event.is_hup ⟨POLLIN, tok⟩ = false) := by
  refine ⟨?_, ?_, ?_, ?_, rfl, rfl, ?_, ?_, ?_, ?_⟩
  · rw [event.is_readable, land_POLLIN, land_POLLPRI]
  · rw [event.is_writable, land_POLLOUT]
  · rw [event.is_error, land_POLLERR]
  · rw [event.is_hup, land_POLLHUP]
  · show ((POLLIN &&& POLLIN != 0) || (POLLIN &&& POLLPRI != 0)) = true
    decide
  · show (POLLIN &&& POLLOUT != 0) = false
    decide
  · show (POLLIN &&& POLLERR != 0) = false
    decide
  · show (POLLIN &&& POLLHUP != 0) = false
    decide

/-- C5: `interests_to_poll` returns exactly the bitwise OR of the
POLLIN bit when the interests are readable and the POLLOUT bit when
they are writable, and no other bit is ever set in the result. -/
theorem interests_to_poll_exact_bits (i : Interests) :
    interests_to_poll i
      = ((if i.is_readable then POLLIN else 0) |||
          (if i.is_writable then POLLOUT else 0))
    ∧ ∀ n : Nat, (interests_to_poll i).testBit n
        = ((decide (n = 0) && i.is_readable)
            || (decide (n = 2) && i.is_writable)) := by
  obtain ⟨rd, wr⟩ := i
  refine ⟨by cases rd <;> cases wr <;> decide, ?_⟩
  intro n
  match n with
  | 0 => cases rd <;> cases wr <;> decide
  | 1 => cases rd <;> cases wr <;> decide
  | 2 => cases rd <;> cases wr <;> decide
  | (m + 3) =>
    have h8 : interests_to_poll ⟨rd, wr⟩ < 8 := by
      cases rd <;> cases wr <;> decide
    have hpow : (8 : Nat) ≤ 2 ^ (m + 3) := by
      calc (8 : Nat) = 2 ^ 3 := by norm_num
      _ ≤ 2 ^ (m + 3) := Nat.pow_le_pow_right (by norm_num) (by omega)
    have hbit : (interests_to_poll ⟨rd, wr⟩).testBit (m + 3) = false :=
      Nat.testBit_eq_false_of_lt (by omega)
    have h0 : ¬(m + 3 = 0) := by omega
    have h2 : ¬(m + 3 = 2) := by omega
    simp [hbit, h0, h2]

/-- C6: `reregister` has a contract identical to `register`: on every
ring state, descriptor, token, and interest set it performs the same
state change and returns the same result. -/
theorem reregister_identical_to_register (r : IoUring) (fd : Int)
    (tok : Token) (i : Interests) :
    Selector.reregister r fd tok i = Selector.register r fd tok i := rfl

/-- C7: `deregister` is a no-op that always returns success: the ring
state (submission queue, capacity, completions) is unchanged, no error
is ever returned, and a subsequent `select` behaves exactly as it would
have without the `deregister` call, so readiness events for the
descriptor continue to be produced. -/
theorem deregister_noop_always_ok (r : IoUring) (fd : Int)
    (es0 : List Event) (t : Option Nat) :
    Selector.deregister r fd = (Except.ok (), r)
    ∧ (Selector.deregister r fd).2 = r
    ∧ Selector.select (Selector.deregister r fd).2 es0 t
        = Selector.select r es0 t := ⟨rfl, rfl, rfl⟩

/-- C8: the timeout argument of `select` has no effect: on every ring
state and prior output buffer, any two timeout values (including none)
yield exactly the same result, the same output events, and the same
final ring state. -/
theorem select_ignores_timeout (r : IoUring) (es0 : List Event)
    (t1 t2 : Option Nat) :
    Selector.select r es0 t1 = Selector.select r es0 t2 := rfl

/-- C10: `try_clone` unconditionally succeeds, and the clone it returns
shares the ring handle of the original (the `Arc` is cloned, no new
ring is allocated), carrying the same debug id. -/
theorem try_clone_always_ok_shares_ring (s : Selector) :
    Selector.try_clone s = Except.ok s.clone
    ∧ s.clone.ring = s.ring
    ∧ s.clone.id = s.id := ⟨rfl, rfl, rfl⟩

/-- C1: a successful `select` first clears the caller-supplied output
buffer and then appends exactly one readiness event per drained
completion (the output equals the per-completion events, whatever the
buffer held before), each event echoing the token stored in the watch
record that produced the completion; and a successful `register` stores
exactly the caller-supplied token in the watch record it enqueues. -/
theorem select_clears_and_echoes_registered_tokens
    (r r2 : IoUring) (es0 : List Event) (t : Option Nat)
    (fd : Int) (tok : Token) (i : Interests)
    (hsel : (Selector.select r es0 t).1 = Except.ok ())
    (hreg : (Selector.register r2 fd tok i).1 = Except.ok ()) :
    (Selector.select r es0 t).2.1 = r.cq.map drain_event
    ∧ ((Selector.select r es0 t).2.1).map event.token
        = r.cq.map (fun c => c.user_data.token)
    ∧ (Selector.register r2 fd tok i).2.sq
        = r2.sq ++ [(Data.mk fd tok i).into_entry] := by
  refine ⟨rfl, ?_, ?_⟩
  · show (r.cq.map drain_event).map event.token = _
    rw [List.map_map]
    rfl
  · by_cases hfull : r2.sq.length < r2.sq_capacity
    · simp [Selector.register, IoUring.sq_push, hfull]
    · exfalso
      simp [Selector.register, IoUring.sq_push, hfull] at hreg

theorem select_clears_and_echoes_registered_tokens_witness :
    (Selector.select ⟨[], 4, [⟨⟨5, ⟨7⟩, ⟨true, false⟩⟩, 1⟩]⟩ [⟨9, 9⟩] none).1
        = Except.ok ()
    ∧ (Selector.register ⟨[], 4, []⟩ 3 ⟨9⟩ ⟨true, true⟩).1 = Except.ok ()
    ∧ ((Selector.select ⟨[], 4, [⟨⟨5, ⟨7⟩, ⟨true, false⟩⟩, 1⟩]⟩ [⟨9, 9⟩] none).2.1
          = ([⟨⟨5, ⟨7⟩, ⟨true, false⟩⟩, 1⟩] : List CQEntry).map drain_event
      ∧ ((Selector.select ⟨[], 4, [⟨⟨5, ⟨7⟩, ⟨true, false⟩⟩, 1⟩]⟩ [⟨9, 9⟩] none).2.1).map
            event.token
          = ([⟨⟨5, ⟨7⟩, ⟨true, false⟩⟩, 1⟩] : List CQEntry).map
              (fun c => c.user_data.token)
      ∧ (Selector.register ⟨[], 4, []⟩ 3 ⟨9⟩ ⟨true, true⟩).2.sq
          = [] ++ [(Data.mk 3 ⟨9⟩ ⟨true, true⟩).into_entry]) :=
  ⟨rfl, rfl,
    select_clears_and_echoes_registered_tokens
      ⟨[], 4, [⟨⟨5, ⟨7⟩, ⟨true, false⟩⟩, 1⟩]⟩ ⟨[], 4, []⟩ [⟨9, 9⟩] none
      3 ⟨9⟩ ⟨true, true⟩ rfl rfl⟩

/-- C2: a successful `select` re-submits, before returning, one fresh
submission entry per reclaimed watch record, in drain order, each
carrying the same descriptor, the same token, the same interest set,
and the poll mask derived from that same interest set; the completions
are all consumed. -/
theorem select_rearms_reclaimed_records_unchanged
    (r : IoUring) (es0 : List Event) (t : Option Nat)
    (hsel : (Selector.select r es0 t).1 = Except.ok ()) :
    (Selector.select r es0 t).2.2.sq
      = r.cq.map (fun c => c.user_data.into_entry)
    ∧ ((Selector.select r es0 t).2.2.sq).map
          (fun e => (e.fd, e.user_data.token, e.user_data.interests, e.mask))
        = r.cq.map (fun c => (c.user_data.fd, c.user_data.token,
            c.user_data.interests, interests_to_poll c.user_data.interests))
    ∧ (Selector.select r es0 t).2.2.cq = [] := by
  have h1 : (Selector.rearm (⟨[], r.sq_capacity, []⟩ : IoUring)
      (r.cq.map (fun c => c.user_data))).1 = Except.ok () := hsel
  have h2 := rearm_ok_state _ _ h1 (by simp)
  have hsq : (Selector.select r es0 t).2.2.sq
      = r.cq.map (fun c => c.user_data.into_entry) := by
    show (Selector.rearm (⟨[], r.sq_capacity, []⟩ : IoUring)
        (r.cq.map (fun c => c.user_data))).2.sq = _
    rw [h2]
    simp [List.map_map]
  refine ⟨hsq, ?_, ?_⟩
  · rw [hsq, List.map_map]
    rfl
  · show (Selector.rearm (⟨[], r.sq_capacity, []⟩ : IoUring)
        (r.cq.map (fun c => c.user_data))).2.cq = _
    rw [h2]

theorem select_rearms_reclaimed_records_unchanged_witness :
    (Selector.select ⟨[], 4, [⟨⟨5, ⟨7⟩, ⟨true, false⟩⟩, 1⟩]⟩ [] none).1
        = Except.ok ()
    ∧ ((Selector.select ⟨[], 4, [⟨⟨5, ⟨7⟩, ⟨true, false⟩⟩, 1⟩]⟩ [] none).2.2.sq
          = ([⟨⟨5, ⟨7⟩, ⟨true, false⟩⟩, 1⟩] : List CQEntry).map
              (fun c => c.user_data.into_entry)
      ∧ ((Selector.select ⟨[], 4, [⟨⟨5, ⟨7⟩, ⟨true, false⟩⟩, 1⟩]⟩ [] none).2.2.sq).map
            (fun e => (e.fd, e.user_data.token, e.user_data.interests, e.mask))
          = ([⟨⟨5, ⟨7⟩, ⟨true, false⟩⟩, 1⟩] : List CQEntry).map
              (fun c => (c.user_data.fd, c.user_data.token,
                c.user_data.interests, interests_to_poll c.user_data.interests))
      ∧ (Selector.select ⟨[], 4, [⟨⟨5, ⟨7⟩, ⟨true, false⟩⟩, 1⟩]⟩ [] none).2.2.cq
          = []) :=
  ⟨rfl,
    select_rearms_reclaimed_records_unchanged
      ⟨[], 4, [⟨⟨5, ⟨7⟩, ⟨true, false⟩⟩, 1⟩]⟩ [] none rfl⟩

/-- C3 counterexample: with a full submission queue, `register` fails,
but the error it returns has kind `Other` (message "submission queue is
full"), which is not a resource-exhausted kind — the claim that the
error kind is resource-exhausted is false at this input. -/
theorem register_full_error_kind_is_other_not_resource_exhausted :
    (Selector.register ⟨[(Data.mk 0 ⟨0⟩ ⟨true, false⟩).into_entry], 1, []⟩
        3 ⟨7⟩ ⟨true, false⟩).1
      = Except.error ⟨ErrorKind.Other, "submission queue is full"⟩
    ∧ ErrorKind.Other ≠ ErrorKind.ResourceExhausted :=
  ⟨rfl, by decide⟩

/-- C3 amended: whenever the submission queue has no free slot,
`register` and `reregister` fail, returning to the caller (with the
ring unchanged, so nothing is retried internally) an I/O error of kind
`Other` carrying the message "submission queue is full", and `select`
returns the same error when the submission queue fills during the
rearm step. -/
theorem sq_full_ops_return_other_error
    (r r2 : IoUring) (es0 : List Event) (t : Option Nat)
    (fd : Int) (tok : Token) (i : Interests)
    (hfull : r.sq_capacity ≤ r.sq.length)
    (hfull2 : r2.sq_capacity < r2.cq.length) :
    Selector.register r fd tok i = (Except.error sq_full_error, r)
    ∧ Selector.reregister r fd tok i = (Except.error sq_full_error, r)
    ∧ (Selector.select r2 es0 t).1 = Except.error sq_full_error
    ∧ sq_full_error = ⟨ErrorKind.Other, "submission queue is full"⟩ := by
  have hreg : Selector.register r fd tok i = (Except.error sq_full_error, r) := by
    simp [Selector.register, IoUring.sq_push, Nat.not_lt.mpr hfull]
  refine ⟨hreg, hreg, ?_, rfl⟩
  have hfail := rearm_fail_of (⟨[], r2.sq_capacity, []⟩ : IoUring)
      (r2.cq.map (fun c => c.user_data)) (by simp) (by simpa using hfull2)
  show (Selector.rearm (⟨[], r2.sq_capacity, []⟩ : IoUring)
      (r2.cq.map (fun c => c.user_data))).1 = _
  rw [hfail]

theorem sq_full_ops_return_other_error_witness :
    (⟨[(Data.mk 0 ⟨0⟩ ⟨true, false⟩).into_entry], 1, []⟩ : IoUring).sq_capacity
        ≤ (⟨[(Data.mk 0 ⟨0⟩ ⟨true, false⟩).into_entry], 1, []⟩ : IoUring).sq.length
    ∧ (⟨[], 1, [⟨⟨5, ⟨7⟩, ⟨true, false⟩⟩, 1⟩, ⟨⟨6, ⟨8⟩, ⟨false, true⟩⟩, 4⟩]⟩
          : IoUring).sq_capacity
        < (⟨[], 1, [⟨⟨5, ⟨7⟩, ⟨true, false⟩⟩, 1⟩, ⟨⟨6, ⟨8⟩, ⟨false, true⟩⟩, 4⟩]⟩
          : IoUring).cq.length
    ∧ (Selector.register ⟨[(Data.mk 0 ⟨0⟩ ⟨true, false⟩).into_entry], 1, []⟩
          3 ⟨9⟩ ⟨true, true⟩
        = (Except.error sq_full_error,
            ⟨[(Data.mk 0 ⟨0⟩ ⟨true, false⟩).into_entry], 1, []⟩)
      ∧ Selector.reregister ⟨[(Data.mk 0 ⟨0⟩ ⟨true, false⟩).into_entry], 1, []⟩
          3 ⟨9⟩ ⟨true, true⟩
        = (Except.error sq_full_error,
            ⟨[(Data.mk 0 ⟨0⟩ ⟨true, false⟩).into_entry], 1, []⟩)
      ∧ (Selector.select
            ⟨[], 1, [⟨⟨5, ⟨7⟩, ⟨true, false⟩⟩, 1⟩, ⟨⟨6, ⟨8⟩, ⟨false, true⟩⟩, 4⟩]⟩
            [] none).1 = Except.error sq_full_error
      ∧ sq_full_error = ⟨ErrorKind.Other, "submission queue is full"⟩) :=
  ⟨by decide, by decide,
    sq_full_ops_return_other_error
      ⟨[(Data.mk 0 ⟨0⟩ ⟨true, false⟩).into_entry], 1, []⟩
      ⟨[], 1, [⟨⟨5, ⟨7⟩, ⟨true, false⟩⟩, 1⟩, ⟨⟨6, ⟨8⟩, ⟨false, true⟩⟩, 4⟩]⟩
      [] none 3 ⟨9⟩ ⟨true, true⟩ (by decide) (by decide)⟩

/-- C9: `select` is not atomic when the rearm step overflows the
submission queue: it returns the queue-full error, yet every readiness
event drained into the output buffer stays there (no rollback or
re-clear), the records rearmed before the failing one remain on the
submission queue, and the failing record and all records after it are
dropped (the submission queue holds exactly the first
`sq_capacity`-many rearm entries, and the completions are consumed). -/
theorem select_rearm_failure_nonatomic
    (r : IoUring) (es0 : List Event) (t : Option Nat)
    (h : r.sq_capacity < r.cq.length) :
    (Selector.select r es0 t).1 = Except.error sq_full_error
    ∧ (Selector.select r es0 t).2.1 = r.cq.map drain_event
    ∧ (Selector.select r es0 t).2.2.sq
        = (r.cq.map (fun c => c.user_data.into_entry)).take r.sq_capacity
    ∧ (Selector.select r es0 t).2.2.cq = [] := by
  have hfail := rearm_fail_of (⟨[], r.sq_capacity, []⟩ : IoUring)
      (r.cq.map (fun c => c.user_data)) (by simp) (by simpa using h)
  refine ⟨?_, rfl, ?_, ?_⟩
  · show (Selector.rearm (⟨[], r.sq_capacity, []⟩ : IoUring)
        (r.cq.map (fun c => c.user_data))).1 = _
    rw [hfail]
  · show (Selector.rearm (⟨[], r.sq_capacity, []⟩ : IoUring)
        (r.cq.map (fun c => c.user_data))).2.sq = _
    rw [hfail]
    simp only [List.map_map, List.nil_append, List.length_nil, Nat.sub_zero]
    rfl
  · show (Selector.rearm (⟨[], r.sq_capacity, []⟩ : IoUring)
        (r.cq.map (fun c => c.user_data))).2.cq = _
    rw [hfail]

theorem select_rearm_failure_nonatomic_witness :
    (⟨[], 1, [⟨⟨5, ⟨7⟩, ⟨true, false⟩⟩, 1⟩, ⟨⟨6, ⟨8⟩, ⟨false, true⟩⟩, 4⟩]⟩
        : IoUring).sq_capacity
      < (⟨[], 1, [⟨⟨5, ⟨7⟩, ⟨true, false⟩⟩, 1⟩, ⟨⟨6, ⟨8⟩, ⟨false, true⟩⟩, 4⟩]⟩
        : IoUring).cq.length
    ∧ ((Selector.select
          ⟨[], 1, [⟨⟨5, ⟨7⟩, ⟨true, false⟩⟩, 1⟩, ⟨⟨6, ⟨8⟩, ⟨false, true⟩⟩, 4⟩]⟩
          [⟨2, 3⟩] none).1 = Except.error sq_full_error
      ∧ (Selector.select
          ⟨[], 1, [⟨⟨5, ⟨7⟩, ⟨true, false⟩⟩, 1⟩, ⟨⟨6, ⟨8⟩, ⟨false, true⟩⟩, 4⟩]⟩
          [⟨2, 3⟩] none).2.1
        = ([⟨⟨5, ⟨7⟩, ⟨true, false⟩⟩, 1⟩, ⟨⟨6, ⟨8⟩, ⟨false, true⟩⟩, 4⟩]
            : List CQEntry).map drain_event
      ∧ (Selector.select
          ⟨[], 1, [⟨⟨5, ⟨7⟩, ⟨true, false⟩⟩, 1⟩, ⟨⟨6, ⟨8⟩, ⟨false, true⟩⟩, 4⟩]⟩
          [⟨2, 3⟩] none).2.2.sq
        = (([⟨⟨5, ⟨7⟩, ⟨true, false⟩⟩, 1⟩, ⟨⟨6, ⟨8⟩, ⟨false, true⟩⟩, 4⟩]
            : List CQEntry).map (fun c => c.user_data.into_entry)).take 1
      ∧ (Selector.select
          ⟨[], 1, [⟨⟨5, ⟨7⟩, ⟨true, false⟩⟩, 1⟩, ⟨⟨6, ⟨8⟩, ⟨false, true⟩⟩, 4⟩]⟩
          [⟨2, 3⟩] none).2.2.cq = []) :=
  ⟨by decide,
    select_rearm_failure_nonatomic
      ⟨[], 1, [⟨⟨5, ⟨7⟩, ⟨true, false⟩⟩, 1⟩, ⟨⟨6, ⟨8⟩, ⟨false, true⟩⟩, 4⟩]⟩
      [⟨2, 3⟩] none (by decide)⟩
